import Mathlib

set_option maxRecDepth 20000

/-!
Verification of the Skewb puzzle core (Go package `skewb`, file `src/unnamed/part_000`).

The embedding below translates the puzzle-algebra core of the source:
the `Skewb` state (8 corners, 6 centers), the two move notations
(`ApplyWCAMoves`, `ApplyRubiskewbMoves`), the Reverse Computer
(`createReverse`), the equivalence checkers (`equal` / `ExactEqual` /
`Equal` / `CenterDown`) and the mirror checkers (`OneLayerMirror`,
`FullMirror`).

Conventions of the embedding:
* Colors are Go strings, modelled as Lean `String`.
* The drawing geometry (`cornerPositions`, `centerPositions`,
  `Draw`) is omitted: those fields are slot-fixed constants that no
  modelled operation ever reads or writes, and drawing is out of the
  algebra's scope.
* Go methods mutate their receiver and their `other` argument through
  pointers; the embedding threads the mutated values explicitly.  An
  operation that returns an `error` in Go is modelled as returning
  `Skewb × Option String`: the first component is the (possibly
  partially mutated) state, the second the error message, so the
  non-atomic partial-application semantics of the source is preserved.
* A Go runtime abort (index out of range in `getLayerColor`) is
  modelled as `Option.none`.
* `strings.Split(s, " ")` is modelled by `goSplitSpace`, a structural
  recursion over the character list with the same semantics (keeps the
  empty fields; splitting the empty string yields one empty token).
-/

/-- Color triple of one corner (the `colors` field of the Go `corner`
struct; the `CornerColors` struct of the source). -/
structure CornerColors where
  first : String
  second : String
  third : String
  deriving DecidableEq, Repr

/-- The Skewb state: 8 corners and 6 centers, each slot a fixed
identity whose occupant colors change (Go struct `Skewb`, colors
only). -/
structure Skewb where
  ufr : CornerColors
  urb : CornerColors
  ulf : CornerColors
  ubl : CornerColors
  drf : CornerColors
  dbr : CornerColors
  dfl : CornerColors
  dlb : CornerColors
  up : String
  front : String
  right : String
  back : String
  left : String
  down : String
  deriving DecidableEq, Repr

/-- Go `New`: a solved state from the six face colors. -/
def New (upColor frontColor rightColor backColor leftColor downColor : String) : Skewb :=
  { ufr := ⟨upColor, frontColor, rightColor⟩
    urb := ⟨upColor, rightColor, backColor⟩
    ulf := ⟨upColor, leftColor, frontColor⟩
    ubl := ⟨upColor, backColor, leftColor⟩
    drf := ⟨downColor, rightColor, frontColor⟩
    dbr := ⟨downColor, backColor, rightColor⟩
    dfl := ⟨downColor, frontColor, leftColor⟩
    dlb := ⟨downColor, leftColor, backColor⟩
    up := upColor
    front := frontColor
    right := rightColor
    back := backColor
    left := leftColor
    down := downColor }

/-- Go error value `ErrWCAMove` (used verbatim by both notations). -/
def errWCAMove : String :=
  "wca move is not supported; valid types are: \"U\", \"U'\" \"R\", \"R'\" \"B\", \"B'\" \"L\", \"L'\", \"x\", \"x'\", \"x2\", \"y\", \"y'\", \"y2\", \"z\", \"z'\", \"z2\""

/-- Go error value `ErrColor`. -/
def errColor : String := "color is not part of Skewb"

/-- Go `(c *corner) rotate`: cyclic shift of the orientation triple. -/
def cornerRotate (c : CornerColors) (isClockwise : Bool) : CornerColors :=
  if isClockwise then ⟨c.second, c.third, c.first⟩ else ⟨c.third, c.first, c.second⟩

/-- Go `rotateThreeCenters` / `rotateThreeCorners`: a 3-cycle of the
occupants of three slots. -/
def rotateThree {β : Type} (a b c : β) (isClockwise : Bool) : β × β × β :=
  if isClockwise then (c, a, b) else (b, c, a)

/-- Go `rotateFourCenters` / `rotateFourCorners`: a 4-cycle of the
occupants of four slots. -/
def rotateFour {β : Type} (a b c d : β) (isClockwise : Bool) : β × β × β × β :=
  if isClockwise then (d, a, b, c) else (b, c, d, a)

/-- The seven slots touched by one face turn: the pivot corner, the
three cycled corners and the three cycled centers. -/
structure MoveParts where
  rc : CornerColors
  fc : CornerColors
  sc : CornerColors
  tc : CornerColors
  n1 : String
  n2 : String
  n3 : String

/-- Go `applyMove`: pivot rotates in place with the move's handedness,
the three other corners rotate in place with the opposite handedness
and are 3-cycled together with the three centers. -/
def applyMove (p : MoveParts) (isClockwise : Bool) : MoveParts :=
  let rc := cornerRotate p.rc isClockwise
  let fc := cornerRotate p.fc (!isClockwise)
  let sc := cornerRotate p.sc (!isClockwise)
  let tc := cornerRotate p.tc (!isClockwise)
  let (n1, n2, n3) := rotateThree p.n1 p.n2 p.n3 isClockwise
  let (fc2, sc2, tc2) := rotateThree fc sc tc isClockwise
  ⟨rc, fc2, sc2, tc2, n1, n2, n3⟩

/-- The twelve slots touched by one whole-puzzle axis rotation: two
corner 4-cycles and one center 4-cycle. -/
structure RotParts where
  c1 : CornerColors
  c2 : CornerColors
  c3 : CornerColors
  c4 : CornerColors
  c5 : CornerColors
  c6 : CornerColors
  c7 : CornerColors
  c8 : CornerColors
  n1 : String
  n2 : String
  n3 : String
  n4 : String

/-- One quarter of Go `applyRotation` (the body that is run once, and
twice for a `2`-suffixed move): cycle the four centers and both corner
rings, then for non-y axes re-orient the eight corners in place with
alternating handedness. -/
def rotationQuarter (p : RotParts) (isClockwise isY : Bool) : RotParts :=
  let (n1, n2, n3, n4) := rotateFour p.n1 p.n2 p.n3 p.n4 isClockwise
  let (c1, c2, c3, c4) := rotateFour p.c1 p.c2 p.c3 p.c4 isClockwise
  let (c5, c6, c7, c8) := rotateFour p.c5 p.c6 p.c7 p.c8 isClockwise
  if isY then ⟨c1, c2, c3, c4, c5, c6, c7, c8, n1, n2, n3, n4⟩
  else
    ⟨cornerRotate c1 false, cornerRotate c2 true, cornerRotate c3 false, cornerRotate c4 true,
      cornerRotate c5 true, cornerRotate c6 false, cornerRotate c7 true, cornerRotate c8 false,
      n1, n2, n3, n4⟩

/-- Go `applyRotation`: the quarter-turn body, applied a second time
when `isDouble`. -/
def applyRotation (p : RotParts) (isClockwise isDouble isY : Bool) : RotParts :=
  let q := rotationQuarter p isClockwise isY
  if isDouble then rotationQuarter q isClockwise isY else q

/-- Face turn with pivot `ubl` (WCA `U`, Rubiskewb `B`). -/
def movePivotUBL (s : Skewb) (cw : Bool) : Skewb :=
  let p := applyMove ⟨s.ubl, s.dlb, s.urb, s.ulf, s.up, s.left, s.back⟩ cw
  { s with ubl := p.rc, dlb := p.fc, urb := p.sc, ulf := p.tc, up := p.n1, left := p.n2, back := p.n3 }

/-- Face turn with pivot `dbr` (WCA `R`, Rubiskewb `r`). -/
def movePivotDBR (s : Skewb) (cw : Bool) : Skewb :=
  let p := applyMove ⟨s.dbr, s.drf, s.urb, s.dlb, s.right, s.back, s.down⟩ cw
  { s with dbr := p.rc, drf := p.fc, urb := p.sc, dlb := p.tc, right := p.n1, back := p.n2, down := p.n3 }

/-- Face turn with pivot `dlb` (WCA `B`, Rubiskewb `b`). -/
def movePivotDLB (s : Skewb) (cw : Bool) : Skewb :=
  let p := applyMove ⟨s.dlb, s.dbr, s.ubl, s.dfl, s.back, s.left, s.down⟩ cw
  { s with dlb := p.rc, dbr := p.fc, ubl := p.sc, dfl := p.tc, back := p.n1, left := p.n2, down := p.n3 }

/-- Face turn with pivot `dfl` (WCA `L`, Rubiskewb `l`). -/
def movePivotDFL (s : Skewb) (cw : Bool) : Skewb :=
  let p := applyMove ⟨s.dfl, s.dlb, s.ulf, s.drf, s.front, s.down, s.left⟩ cw
  { s with dfl := p.rc, dlb := p.fc, ulf := p.sc, drf := p.tc, front := p.n1, down := p.n2, left := p.n3 }

/-- Face turn with pivot `urb` (Rubiskewb `R`). -/
def movePivotURB (s : Skewb) (cw : Bool) : Skewb :=
  let p := applyMove ⟨s.urb, s.ufr, s.ubl, s.dbr, s.right, s.up, s.back⟩ cw
  { s with urb := p.rc, ufr := p.fc, ubl := p.sc, dbr := p.tc, right := p.n1, up := p.n2, back := p.n3 }

/-- Face turn with pivot `ulf` (Rubiskewb `L`). -/
def movePivotULF (s : Skewb) (cw : Bool) : Skewb :=
  let p := applyMove ⟨s.ulf, s.ubl, s.ufr, s.dfl, s.up, s.front, s.left⟩ cw
  { s with ulf := p.rc, ubl := p.fc, ufr := p.sc, dfl := p.tc, up := p.n1, front := p.n2, left := p.n3 }

/-- Face turn with pivot `ufr` (Rubiskewb `F`). -/
def movePivotUFR (s : Skewb) (cw : Bool) : Skewb :=
  let p := applyMove ⟨s.ufr, s.ulf, s.urb, s.drf, s.front, s.up, s.right⟩ cw
  { s with ufr := p.rc, ulf := p.fc, urb := p.sc, drf := p.tc, front := p.n1, up := p.n2, right := p.n3 }

/-- Face turn with pivot `drf` (Rubiskewb `f`). -/
def movePivotDRF (s : Skewb) (cw : Bool) : Skewb :=
  let p := applyMove ⟨s.drf, s.dfl, s.ufr, s.dbr, s.front, s.right, s.down⟩ cw
  { s with drf := p.rc, dfl := p.fc, ufr := p.sc, dbr := p.tc, front := p.n1, right := p.n2, down := p.n3 }

/-- The x-axis whole-puzzle rotation (both notations). -/
def rotX (s : Skewb) (cw dbl : Bool) : Skewb :=
  let p := applyRotation
    ⟨s.ufr, s.urb, s.dbr, s.drf, s.ulf, s.ubl, s.dlb, s.dfl, s.front, s.up, s.back, s.down⟩
    cw dbl false
  { s with
      ufr := p.c1, urb := p.c2, dbr := p.c3, drf := p.c4, ulf := p.c5, ubl := p.c6
      dlb := p.c7, dfl := p.c8, front := p.n1, up := p.n2, back := p.n3, down := p.n4 }

/-- The y-axis whole-puzzle rotation (both notations); corners are not
re-oriented. -/
def rotY (s : Skewb) (cw dbl : Bool) : Skewb :=
  let p := applyRotation
    ⟨s.ufr, s.ulf, s.ubl, s.urb, s.drf, s.dfl, s.dlb, s.dbr, s.front, s.left, s.back, s.right⟩
    cw dbl true
  { s with
      ufr := p.c1, ulf := p.c2, ubl := p.c3, urb := p.c4, drf := p.c5, dfl := p.c6
      dlb := p.c7, dbr := p.c8, front := p.n1, left := p.n2, back := p.n3, right := p.n4 }

/-- The z-axis whole-puzzle rotation (both notations). -/
def rotZ (s : Skewb) (cw dbl : Bool) : Skewb :=
  let p := applyRotation
    ⟨s.ulf, s.ufr, s.drf, s.dfl, s.ubl, s.urb, s.dbr, s.dlb, s.up, s.right, s.down, s.left⟩
    cw dbl false
  { s with
      ulf := p.c1, ufr := p.c2, drf := p.c3, dfl := p.c4, ubl := p.c5, urb := p.c6
      dbr := p.c7, dlb := p.c8, up := p.n1, right := p.n2, down := p.n3, left := p.n4 }

/-- The first `switch` of Go `ApplyWCAMoves`: direction of a WCA
token, `none` for an unsupported token. -/
def wcaClockwise (m : String) : Option Bool :=
  if m = "U" ∨ m = "R" ∨ m = "B" ∨ m = "L" ∨ m = "x" ∨ m = "x2" ∨ m = "y" ∨ m = "y2" ∨
      m = "z" ∨ m = "z2" then some true
  else if m = "U'" ∨ m = "R'" ∨ m = "B'" ∨ m = "L'" ∨ m = "x'" ∨ m = "y'" ∨ m = "z'" then
    some false
  else none

/-- The second `switch` of Go `ApplyWCAMoves`: the transformation of
one (already validated) WCA token. -/
def wcaDispatch (s : Skewb) (m : String) (cw : Bool) : Skewb :=
  if m = "U" ∨ m = "U'" then movePivotUBL s cw
  else if m = "R" ∨ m = "R'" then movePivotDBR s cw
  else if m = "B" ∨ m = "B'" then movePivotDLB s cw
  else if m = "L" ∨ m = "L'" then movePivotDFL s cw
  else if m = "x" ∨ m = "x'" ∨ m = "x2" then rotX s cw (m = "x2")
  else if m = "y" ∨ m = "y'" ∨ m = "y2" then rotY s cw (m = "y2")
  else if m = "z" ∨ m = "z'" ∨ m = "z2" then rotZ s cw (m = "z2")
  else s

/-- Go `strings.Split(·, " ")` on the character list: split at every
space, keeping empty fields; the empty list yields one empty field. -/
def splitSpace : List Char → List (List Char)
  | [] => [[]]
  | c :: rest =>
    if c = ' ' then [] :: splitSpace rest
    else
      match splitSpace rest with
      | [] => [[c]]
      | g :: gs => (c :: g) :: gs

/-- Go `strings.Split(s, " ")` on strings. -/
def goSplitSpace (s : String) : List String :=
  (splitSpace s.data).map String.mk

/-- The loop body of Go `ApplyWCAMoves` over the token list: apply
each token in order, stop at the first unsupported token with the
Go-formatted error, keeping the tokens already applied. -/
def applyWCATokens (s : Skewb) : List String → Skewb × Option String
  | [] => (s, none)
  | m :: rest =>
    match wcaClockwise m with
    | none => (s, some (m ++ " " ++ errWCAMove))
    | some cw => applyWCATokens (wcaDispatch s m cw) rest

/-- Go `ApplyWCAMoves`: returns the final (possibly partially
mutated) state and the error, if any. -/
def ApplyWCAMoves (s : Skewb) (wcaMoves : String) : Skewb × Option String :=
  applyWCATokens s (goSplitSpace wcaMoves)

/-- The first `switch` of Go `ApplyRubiskewbMoves`. -/
def rubiClockwise (m : String) : Option Bool :=
  if m = "R" ∨ m = "r" ∨ m = "B" ∨ m = "b" ∨ m = "L" ∨ m = "l" ∨ m = "F" ∨ m = "f" ∨
      m = "x" ∨ m = "x2" ∨ m = "y" ∨ m = "y2" ∨ m = "z" ∨ m = "z2" then some true
  else if m = "R'" ∨ m = "r'" ∨ m = "B'" ∨ m = "b'" ∨ m = "L'" ∨ m = "l'" ∨ m = "F'" ∨
      m = "f'" ∨ m = "x'" ∨ m = "y'" ∨ m = "z'" then some false
  else none

/-- The second `switch` of Go `ApplyRubiskewbMoves`. -/
def rubiDispatch (s : Skewb) (m : String) (cw : Bool) : Skewb :=
  if m = "R" ∨ m = "R'" then movePivotURB s cw
  else if m = "r" ∨ m = "r'" then movePivotDBR s cw
  else if m = "B" ∨ m = "B'" then movePivotUBL s cw
  else if m = "b" ∨ m = "b'" then movePivotDLB s cw
  else if m = "L" ∨ m = "L'" then movePivotULF s cw
  else if m = "l" ∨ m = "l'" then movePivotDFL s cw
  else if m = "F" ∨ m = "F'" then movePivotUFR s cw
  else if m = "f" ∨ m = "f'" then movePivotDRF s cw
  else if m = "x" ∨ m = "x'" ∨ m = "x2" then rotX s cw (m = "x2")
  else if m = "y" ∨ m = "y'" ∨ m = "y2" then rotY s cw (m = "y2")
  else if m = "z" ∨ m = "z'" ∨ m = "z2" then rotZ s cw (m = "z2")
  else s

/-- The loop body of Go `ApplyRubiskewbMoves` over the token list.
Note the source reuses the WCA error value `ErrWCAMove` here. -/
def applyRubiskewbTokens (s : Skewb) : List String → Skewb × Option String
  | [] => (s, none)
  | m :: rest =>
    match rubiClockwise m with
    | none => (s, some (m ++ " " ++ errWCAMove))
    | some cw => applyRubiskewbTokens (rubiDispatch s m cw) rest

/-- Go `ApplyRubiskewbMoves`. -/
def ApplyRubiskewbMoves (s : Skewb) (rubiskewbMoves : String) : Skewb × Option String :=
  applyRubiskewbTokens s (goSplitSpace rubiskewbMoves)

/-- Go `CenterDown`: reposition so the named color is on the down
center, by the unique axis rotation determined by where the color
currently sits; a color on no center is the Go `ErrColor` error. -/
def CenterDown (s : Skewb) (color : String) : Skewb × Option String :=
  if s.up = color then ApplyWCAMoves s "x2"
  else if s.front = color then ApplyWCAMoves s "x'"
  else if s.right = color then ApplyWCAMoves s "z"
  else if s.back = color then ApplyWCAMoves s "x"
  else if s.left = color then ApplyWCAMoves s "z'"
  else if s.down = color then (s, none)
  else (s, some (color ++ " " ++ errColor))

/-- Go `(s *Skewb) equal`: literal slot-by-slot comparison of all
corner triples and centers. -/
def Skewb.equal (s other : Skewb) : Bool :=
  decide (s.ufr = other.ufr) && decide (s.urb = other.urb) && decide (s.ulf = other.ulf) &&
  decide (s.ubl = other.ubl) && decide (s.drf = other.drf) && decide (s.dbr = other.dbr) &&
  decide (s.dfl = other.dfl) && decide (s.dlb = other.dlb) &&
  decide (s.up = other.up) && decide (s.front = other.front) &&
  decide (s.right = other.right) && decide (s.back = other.back) &&
  decide (s.left = other.left) && decide (s.down = other.down)

/-- Go `ExactEqual`: delegates to `equal`. -/
def Skewb.ExactEqual (s other : Skewb) : Bool := Skewb.equal s other

/-- The spin search of Go `Equal` after the `CenterDown` call: test,
then apply `y` to `other` up to three more times, retesting.  Returns
the boolean result and the final (mutated) `other`. -/
def equalSpinSearch (s other : Skewb) : Bool × Skewb :=
  if Skewb.equal s other then (true, other)
  else
    let o1 := (ApplyWCAMoves other "y").1
    if Skewb.equal s o1 then (true, o1)
    else
      let o2 := (ApplyWCAMoves o1 "y").1
      if Skewb.equal s o2 then (true, o2)
      else
        let o3 := (ApplyWCAMoves o2 "y").1
        (Skewb.equal s o3, o3)

/-- Go `Equal`: spin-invariant equality.  The `CenterDown` error is
discarded by the source (`other.CenterDown(s.down.color)` ignores the
returned error), so only the repositioned state is used; the second
component is the final state of the mutated `other` argument. -/
def Equal (s other : Skewb) : Bool × Skewb :=
  equalSpinSearch s (CenterDown other s.down).1

/-- The ASCII apostrophe character (Go `"'"`). -/
def quoteChar : Char := Char.ofNat 39

/-- The per-token transformation of Go `createReverse`: strip all
apostrophes if one is present, otherwise append one unless the token
contains a `2`. -/
def invTok (move : String) : String :=
  if move.data.contains quoteChar then String.mk (move.data.filter (fun c => c ≠ quoteChar))
  else if move.data.contains '2' then move
  else String.mk (move.data ++ [quoteChar])

/-- Go `createReverse`: fold the tokens in order, prepending each
inverted token followed by a space (so the result always carries a
trailing space). -/
def createReverse (moves : String) : String :=
  (goSplitSpace moves).foldl (fun reverse move => invTok move ++ " " ++ reverse) ""

/-- Membership of a color in a corner triple (Go helper `index`,
used only through the comparison with `-1`). -/
def tripleContains (c : CornerColors) (color : String) : Bool :=
  decide (c.first = color) || decide (c.second = color) || decide (c.third = color)

/-- The reference-corner coding switch of Go `getLayerColor`
(positions of `layerCornerColor`, `firstCornerColor`,
`secondCornerColor`; all-zero when the reference corner does not hold
the layer color, as the Go zero value leaves it). -/
def refCode (ref : CornerColors) (layerColor : String) : Int × Int × Int :=
  if ref.first = layerColor then (0, 1, 2)
  else if ref.second = layerColor then (1, 0, 2)
  else if ref.third = layerColor then (1, 2, 0)
  else (0, 0, 0)

/-- The inner switch of Go `getLayerColor`: code one color relative to
the reference corner, `-1` (`otherCornerColor`) when foreign. -/
def codeColor (ref : CornerColors) (r0 : Int × Int × Int) (color : String) : Int :=
  if ref.first = color then r0.1
  else if ref.second = color then r0.2.1
  else if ref.third = color then r0.2.2
  else -1

/-- Code a whole corner relative to the reference corner. -/
def codeCorner (ref : CornerColors) (r0 : Int × Int × Int) (c : CornerColors) :
    Int × Int × Int :=
  (codeColor ref r0 c.first, codeColor ref r0 c.second, codeColor ref r0 c.third)

/-- Go `getLayerColor`.  The Go function writes into a fixed
`[4][3]int` array indexed by the corner list: with an empty list it
aborts at `layerCorners[0]` (index out of range), and with more than
four corners it aborts writing `layerColors[4]`; both aborts are
modelled as `none`.  Unwritten rows keep the Go zero value. -/
def getLayerColor (layerCorners : List CornerColors) (layerColor : String) :
    Option (List (Int × Int × Int)) :=
  match layerCorners with
  | [] => none
  | ref :: rest =>
    if rest.length ≤ 3 then
      let r0 := refCode ref layerColor
      some ((r0 :: rest.map (codeCorner ref r0)) ++
        List.replicate (3 - rest.length) ((0 : Int), (0 : Int), (0 : Int)))
    else none

/-- The eight guarded appends of Go `oneLayerMirror`: the corners of
`s` holding the layer color, paired with `other`'s corner in the same
slot (selection is driven by `s` only). -/
def layerPairs (s other : Skewb) (layerColor : String) :
    List (CornerColors × CornerColors) :=
  (if tripleContains s.ufr layerColor then [(s.ufr, other.ufr)] else []) ++
  (if tripleContains s.urb layerColor then [(s.urb, other.urb)] else []) ++
  (if tripleContains s.ulf layerColor then [(s.ulf, other.ulf)] else []) ++
  (if tripleContains s.ubl layerColor then [(s.ubl, other.ubl)] else []) ++
  (if tripleContains s.drf layerColor then [(s.drf, other.drf)] else []) ++
  (if tripleContains s.dbr layerColor then [(s.dbr, other.dbr)] else []) ++
  (if tripleContains s.dfl layerColor then [(s.dfl, other.dfl)] else []) ++
  (if tripleContains s.dlb layerColor then [(s.dlb, other.dlb)] else [])

/-- Go `(s *Skewb) oneLayerMirror`: compare the relative layer
patterns; `none` models the abort inside `getLayerColor`. -/
def oneLayerMirror (s other : Skewb) (layerColor : String) : Option Bool :=
  let pairs := layerPairs s other layerColor
  match getLayerColor (pairs.map Prod.fst) layerColor,
      getLayerColor (pairs.map Prod.snd) layerColor with
  | some a, some b => some (decide (a = b))
  | _, _ => none

/-- The trial-rotation loop shared by the mirror checks when the test
may abort: apply the rotation, test, and apply the Reverse-Computer
string in both branches (the source reverts the rotation also on
success). -/
def mirrorTrialsO (test : Skewb → Option Bool) : List String → Skewb → Option (Bool × Skewb)
  | [], o => some (false, o)
  | r :: rest, o =>
    let o1 := (ApplyWCAMoves o r).1
    match test o1 with
    | none => none
    | some true => some (true, (ApplyWCAMoves o1 (createReverse r)).1)
    | some false => mirrorTrialsO test rest ((ApplyWCAMoves o1 (createReverse r)).1)

/-- Go `OneLayerMirror`: brings both states to the layer color's down
face (mutating both; `CenterDown` errors are discarded), then runs the
trial rotations `y`, `y'`, `y2`.  Result: the boolean, the final
(mutated) `s` and the final (mutated) `other`; `none` models the
abort inside `getLayerColor`. -/
def OneLayerMirror (s other : Skewb) (layerColor : String) :
    Option (Bool × Skewb × Skewb) :=
  let s1 := (CenterDown s layerColor).1
  let o1 := (CenterDown other s1.down).1
  match oneLayerMirror s1 o1 layerColor with
  | none => none
  | some true => some (true, s1, o1)
  | some false =>
    match mirrorTrialsO (fun o => oneLayerMirror s1 o layerColor) ["y", "y'", "y2"] o1 with
    | none => none
    | some (res, oFinal) => some (res, s1, oFinal)

/-- The per-position switch of Go `getCornerRelativeColors`: replace a
color by the index of the center currently holding it (Go leaves the
zero value 0 when the color is on no center). -/
def relColor (c upC frontC rightC backC leftC downC : String) : Int :=
  if c = upC then 0 else if c = frontC then 1 else if c = rightC then 2
  else if c = backC then 3 else if c = leftC then 4 else if c = downC then 5 else 0

/-- Go `getCornerRelativeColors`. -/
def getCornerRelativeColors (colors : CornerColors) (upC frontC rightC backC leftC downC : String) :
    Int × Int × Int :=
  (relColor colors.first upC frontC rightC backC leftC downC,
   relColor colors.second upC frontC rightC backC leftC downC,
   relColor colors.third upC frontC rightC backC leftC downC)

/-- Go `getRelativeColors`: the `[6][5]int` signature table, one row
per center slot, first column the slot index, remaining columns the
relative colors of the adjacent corner positions in the source's
assignment order. -/
def getRelativeColors (s : Skewb) : List (List Int) :=
  let ufr := getCornerRelativeColors s.ufr s.up s.front s.right s.back s.left s.down
  let urb := getCornerRelativeColors s.urb s.up s.front s.right s.back s.left s.down
  let ulf := getCornerRelativeColors s.ulf s.up s.front s.right s.back s.left s.down
  let ubl := getCornerRelativeColors s.ubl s.up s.front s.right s.back s.left s.down
  let drf := getCornerRelativeColors s.drf s.up s.front s.right s.back s.left s.down
  let dbr := getCornerRelativeColors s.dbr s.up s.front s.right s.back s.left s.down
  let dfl := getCornerRelativeColors s.dfl s.up s.front s.right s.back s.left s.down
  let dlb := getCornerRelativeColors s.dlb s.up s.front s.right s.back s.left s.down
  [[0, ufr.1, urb.1, ulf.1, ubl.1],
   [1, ufr.2.1, ulf.2.2, drf.2.2, dfl.2.1],
   [2, ufr.2.2, urb.2.1, drf.2.1, dbr.2.2],
   [3, urb.2.2, ubl.2.1, dbr.2.1, dlb.2.2],
   [4, ulf.2.1, ubl.2.2, dfl.2.2, dlb.2.1],
   [5, drf.1, dbr.1, dfl.1, dlb.1]]

/-- Go `(s *Skewb) fullMirror`: compare the two signature tables. -/
def fullMirror (s other : Skewb) : Bool :=
  decide (getRelativeColors s = getRelativeColors other)

/-- The rotation-string list of Go `FullMirror`, copied verbatim. -/
def fullMirrorRotations : List String :=
  ["x", "x'", "x2", "y", "y'", "y2", "z", "z'", "z2", "x y", "x y'", "x y2", "x z", "x z'",
   "x z2", "x' y", "x' y'", "x' z", "x' z'", "x2 y", "x2 y'", "x2 z", "x2 z'"]

/-- The trial loop of Go `FullMirror` (total: `fullMirror` cannot
abort); the Reverse-Computer string is applied in both branches. -/
def fullMirrorTrials (s : Skewb) : List String → Skewb → Bool × Skewb
  | [], o => (false, o)
  | r :: rest, o =>
    let o1 := (ApplyWCAMoves o r).1
    if fullMirror s o1 then (true, (ApplyWCAMoves o1 (createReverse r)).1)
    else fullMirrorTrials s rest ((ApplyWCAMoves o1 (createReverse r)).1)

/-- Go `FullMirror`: initial comparison, then the trial rotations. -/
def FullMirror (s other : Skewb) : Bool × Skewb :=
  if fullMirror s other then (true, other)
  else fullMirrorTrials s fullMirrorRotations other

/-- Validity of a WCA token (the first `switch` succeeds). -/
def isWCAToken (m : String) : Bool := (wcaClockwise m).isSome

/-- The state effect of one WCA token (identity for an unsupported
token, which in the Go loop is left unapplied). -/
def wcaTokenState (s : Skewb) (m : String) : Skewb :=
  match wcaClockwise m with
  | some cw => wcaDispatch s m cw
  | none => s

/-- The state effect of a WCA token list. -/
def runWCATokens (s : Skewb) (ts : List String) : Skewb := ts.foldl wcaTokenState s

/-- The solved state used by concrete witnesses. -/
def solvedS : Skewb := New "U" "F" "R" "B" "L" "D"

/-- Join a list of tokens, each followed by one space (the shape the
Reverse Computer accumulates). -/
def catSp : List String → String
  | [] => ""
  | t :: rest => t ++ " " ++ catSp rest

/-- A concrete (deliberately ill-formed-color) state whose down layer
pattern differs from the solved one but matches it after a `y`
rotation: it drives `OneLayerMirror` into a successful trial
rotation. -/
def c5b : Skewb :=
  { ufr := ⟨"k1", "k2", "k3"⟩
    urb := ⟨"k4", "k5", "k6"⟩
    ulf := ⟨"k7", "k8", "k9"⟩
    ubl := ⟨"ka", "kb", "kc"⟩
    drf := ⟨"D", "F", "G"⟩
    dbr := ⟨"D", "R", "F"⟩
    dfl := ⟨"D", "Z", "W"⟩
    dlb := ⟨"D", "T", "R"⟩
    up := "U2"
    front := "F2"
    right := "R2"
    back := "B2"
    left := "L2"
    down := "D" }

/-- A solved state over colors disjoint from `solvedS`'s: no center
of it holds `solvedS`'s down color. -/
def c6b : Skewb := New "1" "2" "3" "4" "5" "6"

/-! ### String and splitting infrastructure -/

/-- Concatenation of strings concatenates the character lists. -/
theorem str_data_append (a b : String) : (a ++ b).data = a.data ++ b.data := by
  cases a
  cases b
  rfl

/-- Rebuilding a string from its character list is the identity. -/
theorem str_mk_data (a : String) : String.mk a.data = a := rfl

/-- String concatenation is associative. -/
theorem str_assoc (a b c : String) : a ++ b ++ c = a ++ (b ++ c) := by
  cases a
  cases b
  cases c
  exact congrArg String.mk (List.append_assoc _ _ _)

/-- The empty string is a right unit. -/
theorem str_append_nil (a : String) : a ++ "" = a := by
  cases a
  exact congrArg String.mk (List.append_nil _)

/-- The empty string is a left unit. -/
theorem str_nil_append (a : String) : "" ++ a = a := by
  cases a
  rfl

/-- `splitSpace` never returns the empty list. -/
theorem splitSpace_ne_nil : ∀ l : List Char, splitSpace l ≠ [] := by
  intro l
  induction l with
  | nil => simp [splitSpace]
  | cons c cs ih =>
    by_cases hc : c = ' '
    · simp [splitSpace, hc]
    · simp only [splitSpace, if_neg hc]
      cases h : splitSpace cs with
      | nil => simp
      | cons g gs => simp

/-- Splitting a space-free prefix followed by a space peels off the
prefix as one field. -/
theorem splitSpace_append_space : ∀ (l₁ l₂ : List Char), ' ' ∉ l₁ →
    splitSpace (l₁ ++ ' ' :: l₂) = l₁ :: splitSpace l₂ := by
  intro l₁
  induction l₁ with
  | nil =>
    intro l₂ _
    simp [splitSpace]
  | cons c cs ih =>
    intro l₂ h
    have hc : ¬(c = ' ') := by
      intro e
      exact h (e ▸ List.mem_cons_self c cs)
    have hcs : ' ' ∉ cs := fun m => h (List.mem_cons_of_mem c m)
    simp only [List.cons_append, splitSpace, if_neg hc]
    rw [List.append_eq, ih l₂ hcs]

/-- `goSplitSpace` never returns the empty list. -/
theorem goSplitSpace_ne_nil (w : String) : goSplitSpace w ≠ [] := by
  unfold goSplitSpace
  simp [splitSpace_ne_nil]

/-- String-level version of `splitSpace_append_space`. -/
theorem goSplitSpace_cat (a b : String) (h : ' ' ∉ a.data) :
    goSplitSpace (a ++ " " ++ b) = a :: goSplitSpace b := by
  unfold goSplitSpace
  have hd : (a ++ " " ++ b).data = a.data ++ ' ' :: b.data := by
    rw [str_data_append, str_data_append]
    show a.data ++ [' '] ++ b.data = a.data ++ ' ' :: b.data
    rw [List.append_assoc]
    rfl
  rw [hd, splitSpace_append_space a.data b.data h]
  simp [str_mk_data]

/-- Appending one token to a `catSp` join. -/
theorem catSp_snoc (l : List String) (x : String) :
    catSp (l ++ [x]) = catSp l ++ (x ++ " ") := by
  induction l with
  | nil =>
    show x ++ " " ++ "" = "" ++ (x ++ " ")
    rw [str_append_nil, str_nil_append]
  | cons t ts ih =>
    show t ++ " " ++ catSp (ts ++ [x]) = t ++ " " ++ catSp ts ++ (x ++ " ")
    rw [ih]
    exact (str_assoc _ _ _).symm

/-- The fold of `createReverse` in closed form. -/
theorem createReverse_foldl : ∀ (ts : List String) (acc : String),
    ts.foldl (fun reverse move => invTok move ++ " " ++ reverse) acc
      = catSp ((ts.map invTok).reverse) ++ acc := by
  intro ts
  induction ts with
  | nil =>
    intro acc
    exact (str_nil_append acc).symm
  | cons t ts ih =>
    intro acc
    rw [List.foldl_cons, ih]
    have hrev : ((t :: ts).map invTok).reverse = (ts.map invTok).reverse ++ [invTok t] := by
      simp
    rw [hrev, catSp_snoc]
    exact (str_assoc _ _ _).symm

/-- `createReverse` is the space-joined reversed inverted token list. -/
theorem createReverse_eq (w : String) :
    createReverse w = catSp (((goSplitSpace w).map invTok).reverse) := by
  unfold createReverse
  rw [createReverse_foldl]
  exact str_append_nil _

/-- Splitting a `catSp` join of space-free tokens recovers the tokens
plus one trailing empty field. -/
theorem goSplitSpace_catSp : ∀ l : List String, (∀ x ∈ l, ' ' ∉ x.data) →
    goSplitSpace (catSp l) = l ++ [""] := by
  intro l
  induction l with
  | nil =>
    intro _
    rfl
  | cons x xs ih =>
    intro h
    have hx : ' ' ∉ x.data := h x (List.mem_cons_self x xs)
    have hxs : ∀ y ∈ xs, ' ' ∉ y.data := fun y hy => h y (List.mem_cons_of_mem x hy)
    show goSplitSpace (x ++ " " ++ catSp xs) = (x :: xs) ++ [""]
    rw [goSplitSpace_cat x (catSp xs) hx, ih hxs]
    rfl

/-- A nonempty `catSp` join ends with a space. -/
theorem catSp_ends : ∀ l : List String, l ≠ [] → ∃ u, catSp l = u ++ " "
  | [], h => absurd rfl h
  | [x], _ => ⟨x, str_append_nil _⟩
  | x :: y :: ys, _ =>
    let ⟨u, hu⟩ := catSp_ends (y :: ys) (by simp)
    ⟨x ++ " " ++ u, by
      show x ++ " " ++ catSp (y :: ys) = x ++ " " ++ u ++ " "
      rw [hu]
      exact (str_assoc _ _ _).symm⟩

/-! ### WCA token facts -/

/-- A valid WCA token is one of the seventeen vocabulary strings. -/
theorem wcaToken_mem (t : String) (h : isWCAToken t = true) :
    t = "U" ∨ t = "R" ∨ t = "B" ∨ t = "L" ∨ t = "x" ∨ t = "x2" ∨ t = "y" ∨ t = "y2" ∨
    t = "z" ∨ t = "z2" ∨ t = "U'" ∨ t = "R'" ∨ t = "B'" ∨ t = "L'" ∨ t = "x'" ∨
    t = "y'" ∨ t = "z'" := by
  unfold isWCAToken wcaClockwise at h
  split at h
  next hc => tauto
  next =>
    split at h
    next hc => tauto
    next => simp at h

/-- Applying a valid token and then its Reverse-Computer inverse is
the identity on states. -/
theorem wcaToken_inv (t : String) (h : isWCAToken t = true) :
    ∀ s : Skewb, wcaTokenState (wcaTokenState s t) (invTok t) = s := by
  rcases wcaToken_mem t h with rfl | rfl | rfl | rfl | rfl | rfl | rfl | rfl | rfl | rfl |
    rfl | rfl | rfl | rfl | rfl | rfl | rfl <;> intro s <;> rfl

/-- The Reverse-Computer inverse of a valid token is valid. -/
theorem wcaToken_inv_valid (t : String) (h : isWCAToken t = true) :
    isWCAToken (invTok t) = true := by
  rcases wcaToken_mem t h with rfl | rfl | rfl | rfl | rfl | rfl | rfl | rfl | rfl | rfl |
    rfl | rfl | rfl | rfl | rfl | rfl | rfl <;> decide

/-- The Reverse-Computer inverse of a valid token contains no space. -/
theorem wcaToken_inv_nospace (t : String) (h : isWCAToken t = true) :
    ' ' ∉ (invTok t).data := by
  rcases wcaToken_mem t h with rfl | rfl | rfl | rfl | rfl | rfl | rfl | rfl | rfl | rfl |
    rfl | rfl | rfl | rfl | rfl | rfl | rfl <;> decide

/-! ### Runs of the WCA loop -/

/-- On an all-valid token list the loop applies every token and
returns no error. -/
theorem applyWCATokens_all_valid : ∀ (ts : List String) (s : Skewb),
    (∀ t ∈ ts, isWCAToken t = true) → applyWCATokens s ts = (runWCATokens s ts, none) := by
  intro ts
  induction ts with
  | nil =>
    intro s _
    rfl
  | cons t ts ih =>
    intro s h
    have ht := h t (List.mem_cons_self t ts)
    obtain ⟨cw, hcw⟩ := Option.isSome_iff_exists.mp ht
    have h1 : applyWCATokens s (t :: ts) = applyWCATokens (wcaDispatch s t cw) ts := by
      simp [applyWCATokens, hcw]
    have h2 : runWCATokens s (t :: ts) = runWCATokens (wcaDispatch s t cw) ts := by
      unfold runWCATokens
      rw [List.foldl_cons]
      unfold wcaTokenState
      rw [hcw]
    rw [h1, h2]
    exact ih _ (fun u hu => h u (List.mem_cons_of_mem t hu))

/-- An all-valid prefix followed by one invalid token: every prefix
token is applied, then the loop stops with the Go-formatted error. -/
theorem applyWCATokens_snoc_invalid : ∀ (ts : List String) (s : Skewb) (u : String),
    (∀ t ∈ ts, isWCAToken t = true) → isWCAToken u = false →
    applyWCATokens s (ts ++ [u]) = (runWCATokens s ts, some (u ++ " " ++ errWCAMove)) := by
  intro ts
  induction ts with
  | nil =>
    intro s u _ hu
    have hnone : wcaClockwise u = none := by
      cases hcw : wcaClockwise u with
      | none => rfl
      | some cw =>
        rw [isWCAToken, hcw] at hu
        simp at hu
    simp [applyWCATokens, hnone, runWCATokens]
  | cons t ts ih =>
    intro s u h hu
    have ht := h t (List.mem_cons_self t ts)
    obtain ⟨cw, hcw⟩ := Option.isSome_iff_exists.mp ht
    have h1 : applyWCATokens s ((t :: ts) ++ [u]) = applyWCATokens (wcaDispatch s t cw) (ts ++ [u]) := by
      simp [applyWCATokens, hcw]
    have h2 : runWCATokens s (t :: ts) = runWCATokens (wcaDispatch s t cw) ts := by
      unfold runWCATokens
      rw [List.foldl_cons]
      unfold wcaTokenState
      rw [hcw]
    rw [h1, h2]
    exact ih _ u (fun v hv => h v (List.mem_cons_of_mem t hv)) hu

/-- The reversed inverted token list undoes an all-valid run. -/
theorem runWCATokens_inv : ∀ (ts : List String) (s : Skewb),
    (∀ t ∈ ts, isWCAToken t = true) →
    runWCATokens (runWCATokens s ts) ((ts.map invTok).reverse) = s := by
  intro ts
  induction ts with
  | nil =>
    intro s _
    rfl
  | cons t ts ih =>
    intro s h
    have ht := h t (List.mem_cons_self t ts)
    have hrev : ((t :: ts).map invTok).reverse = (ts.map invTok).reverse ++ [invTok t] := by
      simp
    have h1 : runWCATokens s (t :: ts) = runWCATokens (wcaTokenState s t) ts := by
      unfold runWCATokens
      rw [List.foldl_cons]
    rw [hrev, h1]
    have h2 : runWCATokens (runWCATokens (wcaTokenState s t) ts)
        ((ts.map invTok).reverse ++ [invTok t])
        = runWCATokens (runWCATokens (runWCATokens (wcaTokenState s t) ts)
            ((ts.map invTok).reverse)) [invTok t] := by
      unfold runWCATokens
      rw [List.foldl_append]
    rw [h2, ih _ (fun u hu => h u (List.mem_cons_of_mem t hu))]
    exact wcaToken_inv t ht s

/-- Applying the Reverse-Computer string of an all-valid sequence:
every inverted token is applied, then the loop errors on the trailing
empty field. -/
theorem reverse_apply (s : Skewb) (w : String)
    (h : ∀ t ∈ goSplitSpace w, isWCAToken t = true) :
    ApplyWCAMoves (ApplyWCAMoves s w).1 (createReverse w)
      = (runWCATokens (ApplyWCAMoves s w).1 (((goSplitSpace w).map invTok).reverse),
         some ("" ++ " " ++ errWCAMove)) := by
  have hsplit : goSplitSpace (createReverse w)
      = ((goSplitSpace w).map invTok).reverse ++ [""] := by
    rw [createReverse_eq]
    apply goSplitSpace_catSp
    intro x hx
    rw [List.mem_reverse] at hx
    obtain ⟨t, ht, rfl⟩ := List.mem_map.mp hx
    exact wcaToken_inv_nospace t (h t ht)
  show applyWCATokens (ApplyWCAMoves s w).1 (goSplitSpace (createReverse w)) = _
  rw [hsplit]
  apply applyWCATokens_snoc_invalid
  · intro x hx
    rw [List.mem_reverse] at hx
    obtain ⟨t, ht, rfl⟩ := List.mem_map.mp hx
    exact wcaToken_inv_valid t (h t ht)
  · rfl

/-- The state after applying a valid sequence and then its
Reverse-Computer string is the original state. -/
theorem applyReverse_state (s : Skewb) (w : String)
    (h : ∀ t ∈ goSplitSpace w, isWCAToken t = true) :
    (ApplyWCAMoves (ApplyWCAMoves s w).1 (createReverse w)).1 = s := by
  rw [reverse_apply s w h]
  have hw : ApplyWCAMoves s w = (runWCATokens s (goSplitSpace w), none) :=
    applyWCATokens_all_valid (goSplitSpace w) s h
  show runWCATokens (ApplyWCAMoves s w).1 _ = s
  rw [hw]
  exact runWCATokens_inv (goSplitSpace w) s h

/-- `equal` is reflexive. -/
theorem equal_refl (s : Skewb) : Skewb.equal s s = true := by
  simp [Skewb.equal]

/-! ### Mirror-check infrastructure -/

/-- When every trial rotation is exactly undone by its
Reverse-Computer string, the `other` state returned by the trial loop
is the state it started from — also on a successful trial, because the
source applies the reverse in both branches. -/
theorem mirrorTrialsO_second (test : Skewb → Option Bool) :
    ∀ (rs : List String) (o : Skewb),
    (∀ r ∈ rs, ∀ o3 : Skewb, (ApplyWCAMoves (ApplyWCAMoves o3 r).1 (createReverse r)).1 = o3) →
    ∀ (res : Bool) (o2 : Skewb), mirrorTrialsO test rs o = some (res, o2) → o2 = o := by
  intro rs
  induction rs with
  | nil =>
    intro o _ res o2 he
    simp [mirrorTrialsO] at he
    exact he.2.symm
  | cons r rs ih =>
    intro o h res o2 he
    have hres : ∀ o3 : Skewb, (ApplyWCAMoves (ApplyWCAMoves o3 r).1 (createReverse r)).1 = o3 :=
      h r (List.mem_cons_self r rs)
    simp only [mirrorTrialsO] at he
    cases ht : test (ApplyWCAMoves o r).1 with
    | none =>
      rw [ht] at he
      simp at he
    | some bb =>
      rw [ht] at he
      cases bb with
      | true =>
        simp at he
        rw [← he.2, hres o]
      | false =>
        simp only at he
        rw [hres o] at he
        exact ih o (fun v hv => h v (List.mem_cons_of_mem r hv)) res o2 he

/-- When the test never aborts, the trial loop never aborts. -/
theorem mirrorTrialsO_isSome (test : Skewb → Option Bool)
    (htest : ∀ o : Skewb, (test o).isSome = true) :
    ∀ (rs : List String) (o : Skewb), (mirrorTrialsO test rs o).isSome = true := by
  intro rs
  induction rs with
  | nil =>
    intro o
    rfl
  | cons r rs ih =>
    intro o
    obtain ⟨bb, hbb⟩ := Option.isSome_iff_exists.mp (htest (ApplyWCAMoves o r).1)
    cases bb with
    | true => simp [mirrorTrialsO, hbb]
    | false => simp [mirrorTrialsO, hbb, ih]

/-- Closed form of the `FullMirror` trial loop under exact
restoration: the boolean is the disjunction of the per-rotation tests
against the starting `other`, and `other` comes back unchanged. -/
theorem fullMirrorTrials_eq (s : Skewb) : ∀ (rs : List String) (o : Skewb),
    (∀ r ∈ rs, ∀ t ∈ goSplitSpace r, isWCAToken t = true) →
    fullMirrorTrials s rs o
      = (rs.any (fun r => fullMirror s (ApplyWCAMoves o r).1), o) := by
  intro rs
  induction rs with
  | nil =>
    intro o _
    rfl
  | cons r rs ih =>
    intro o h
    have hres : (ApplyWCAMoves ((ApplyWCAMoves o r).1) (createReverse r)).1 = o :=
      applyReverse_state o r (h r (List.mem_cons_self r rs))
    by_cases hm : fullMirror s (ApplyWCAMoves o r).1
    · simp [fullMirrorTrials, hm, hres]
    · simp only [fullMirrorTrials, hm, if_false, Bool.false_eq_true]
      rw [hres, ih o (fun v hv => h v (List.mem_cons_of_mem r hv))]
      simp [hm]

/-- The number of layer pairs depends only on the first argument (the
selection conditions test `s`'s corners alone). -/
theorem layerPairs_length (s o1 o2 : Skewb) (lc : String) :
    (layerPairs s o1 lc).length = (layerPairs s o2 lc).length := by
  unfold layerPairs
  simp only [List.length_append, apply_ite List.length, List.length_cons, List.length_nil]

/-- `getLayerColor` aborts exactly outside one to four corners; inside
that range it returns a pattern. -/
theorem getLayerColor_isSome (l : List CornerColors) (lc : String)
    (h1 : 1 ≤ l.length) (h4 : l.length ≤ 4) : (getLayerColor l lc).isSome = true := by
  cases l with
  | nil => simp at h1
  | cons ref rest =>
    have h3 : rest.length ≤ 3 := by
      simpa using h4
    simp [getLayerColor, h3]

/-- `oneLayerMirror` cannot abort when the layer color occurs on one
to four corners of its first argument. -/
theorem oneLayerMirror_isSome (s o : Skewb) (lc : String)
    (h1 : 1 ≤ (layerPairs s s lc).length) (h4 : (layerPairs s s lc).length ≤ 4) :
    (oneLayerMirror s o lc).isSome = true := by
  have hlen : (layerPairs s o lc).length = (layerPairs s s lc).length :=
    layerPairs_length s o s lc
  have ha : (getLayerColor ((layerPairs s o lc).map Prod.fst) lc).isSome = true := by
    apply getLayerColor_isSome
    · simpa [hlen] using h1
    · simpa [hlen] using h4
  have hb : (getLayerColor ((layerPairs s o lc).map Prod.snd) lc).isSome = true := by
    apply getLayerColor_isSome
    · simpa [hlen] using h1
    · simpa [hlen] using h4
  obtain ⟨va, hva⟩ := Option.isSome_iff_exists.mp ha
  obtain ⟨vb, hvb⟩ := Option.isSome_iff_exists.mp hb
  simp [oneLayerMirror, hva, hvb]

/-! ### Claim theorems -/

/-- C1: for every State `s` and every sequence `w` all of whose tokens
are in the WCA vocabulary, applying `w` and then the Reverse
Computer's `createReverse w` yields a State `ExactEqual` to `s`. -/
theorem C1_inverse_law (s : Skewb) (w : String)
    (h : ∀ t ∈ goSplitSpace w, isWCAToken t = true) :
    Skewb.ExactEqual s (ApplyWCAMoves (ApplyWCAMoves s w).1 (createReverse w)).1 = true := by
  rw [applyReverse_state s w h]
  exact equal_refl s

/-- Witness for C1 at the solved state and the sequence
`R U' x2 y z'`. -/
theorem C1_inverse_law_witness :
    (∀ t ∈ goSplitSpace "R U' x2 y z'", isWCAToken t = true) ∧
    Skewb.ExactEqual solvedS
      (ApplyWCAMoves (ApplyWCAMoves solvedS "R U' x2 y z'").1
        (createReverse "R U' x2 y z'")).1 = true :=
  ⟨by decide, C1_inverse_law solvedS "R U' x2 y z'" (by decide)⟩

/-- C2 counterexample: the claim says `FullMirror` tries a fixed list
of 24 rotation strings; the list in the source has 23 entries (the 24
orientations of the rotation group are covered only together with the
initial unrotated comparison). -/
theorem C2_rotations_counterexample : fullMirrorRotations.length ≠ 24 := by decide

/-- C2 amended: `FullMirror` compares the signatures unrotated and
after each of the 23 rotation strings, restoring `other` via the
Reverse Computer after each attempt (also the successful one), returns
true exactly when some of these 24 comparisons matches, and hands
`other` back unchanged. -/
theorem C2_full_mirror_amended :
    fullMirrorRotations.length = 23 ∧
    ∀ s other : Skewb,
      FullMirror s other
        = (fullMirror s other ||
            fullMirrorRotations.any (fun r => fullMirror s (ApplyWCAMoves other r).1),
           other) := by
  constructor
  · rfl
  · intro s other
    have hvalid : ∀ r ∈ fullMirrorRotations, ∀ t ∈ goSplitSpace r, isWCAToken t = true := by
      decide
    unfold FullMirror
    by_cases h0 : fullMirror s other
    · simp [h0]
    · rw [Bool.not_eq_true] at h0
      simp only [h0, Bool.false_eq_true, if_false, Bool.false_or]
      exact fullMirrorTrials_eq s fullMirrorRotations other hvalid

/-- C3: applying `R Q` returns the unsupported-move error naming `Q`,
and the State is exactly the State after `R` alone (which itself
raises no error): tokens before the invalid one stay applied, later
tokens are never processed. -/
theorem C3_partial_application (s : Skewb) :
    (ApplyWCAMoves s "R Q").2 = some ("Q" ++ " " ++ errWCAMove) ∧
    (ApplyWCAMoves s "R Q").1 = (ApplyWCAMoves s "R").1 ∧
    (ApplyWCAMoves s "R").2 = none :=
  ⟨rfl, rfl, rfl⟩

/-- C4: `Equal` mutates its second argument and does not restore it:
with `a` solved and `b = a` plus `y`, `Equal a b` returns true yet `b`
ends up not `ExactEqual` to its pre-call value; with `b = a` plus `R`,
`Equal a b` returns false and `b` again ends up changed. -/
theorem C4_equal_mutates :
    (Equal solvedS (ApplyWCAMoves solvedS "y").1).1 = true ∧
    Skewb.ExactEqual (Equal solvedS (ApplyWCAMoves solvedS "y").1).2
      (ApplyWCAMoves solvedS "y").1 = false ∧
    (Equal solvedS (ApplyWCAMoves solvedS "R").1).1 = false ∧
    Skewb.ExactEqual (Equal solvedS (ApplyWCAMoves solvedS "R").1).2
      (ApplyWCAMoves solvedS "R").1 = false := by decide

/-- C5 counterexample: the claim says a successful trial rotation is
left applied to `b`; at these concrete states the `y` trial succeeds
(the unrotated comparison fails) and `OneLayerMirror` returns `b`
reverted to its pre-trial value `c5b`, not to the `y`-rotated state
(which differs from `c5b`). -/
theorem C5_success_restores_counterexample :
    OneLayerMirror solvedS c5b "D" = some (true, solvedS, c5b) ∧
    (ApplyWCAMoves c5b "y").1 ≠ c5b := by decide

/-- C5 amended: `OneLayerMirror` first brings both states to the same
down face via `CenterDown` (mutating both), and restores `b`'s
rotation via the Reverse Computer after every trial attempt including
the successful one: whenever it returns a result, the returned states
carry exactly the two `CenterDown` repositionings and no trial
rotation. -/
theorem C5_one_layer_mirror_amended (a b : Skewb) (lc : String) (res : Bool)
    (a2 b2 : Skewb) (h : OneLayerMirror a b lc = some (res, a2, b2)) :
    a2 = (CenterDown a lc).1 ∧ b2 = (CenterDown b ((CenterDown a lc).1).down).1 := by
  have hrot : ∀ r ∈ (["y", "y'", "y2"] : List String), ∀ o3 : Skewb,
      (ApplyWCAMoves (ApplyWCAMoves o3 r).1 (createReverse r)).1 = o3 := by
    have hv : ∀ r ∈ (["y", "y'", "y2"] : List String),
        ∀ t ∈ goSplitSpace r, isWCAToken t = true := by decide
    intro r hr o3
    exact applyReverse_state o3 r (hv r hr)
  simp only [OneLayerMirror] at h
  cases h1 : oneLayerMirror (CenterDown a lc).1 (CenterDown b ((CenterDown a lc).1).down).1 lc with
  | none =>
    rw [h1] at h
    simp at h
  | some bb =>
    rw [h1] at h
    cases bb with
    | true =>
      simp at h
      exact ⟨h.2.1.symm, h.2.2.symm⟩
    | false =>
      cases h2 : mirrorTrialsO (fun o => oneLayerMirror (CenterDown a lc).1 o lc)
          ["y", "y'", "y2"] (CenterDown b ((CenterDown a lc).1).down).1 with
      | none =>
        rw [h2] at h
        simp at h
      | some p =>
        rw [h2] at h
        obtain ⟨res2, oF⟩ := p
        simp at h
        have hoF : oF = (CenterDown b ((CenterDown a lc).1).down).1 :=
          mirrorTrialsO_second (fun o => oneLayerMirror (CenterDown a lc).1 o lc)
            ["y", "y'", "y2"] (CenterDown b ((CenterDown a lc).1).down).1 hrot res2 oF h2
        exact ⟨h.2.1.symm, by rw [← h.2.2, hoF]⟩

/-- Witness for the amended C5 at the solved state, where
`OneLayerMirror` succeeds immediately. -/
theorem C5_one_layer_mirror_amended_witness :
    solvedS = (CenterDown solvedS "D").1 ∧
    solvedS = (CenterDown solvedS ((CenterDown solvedS "D").1).down).1 :=
  C5_one_layer_mirror_amended solvedS solvedS "D" true solvedS solvedS (by decide)

/-- C6 counterexample: with `a`'s down color on none of `b`'s centers
the inner `CenterDown` does produce the color-not-found error, but
`Equal` discards it and returns an ordinary boolean result — `b` is
left unrepositioned and merely `y`-spun by the search, so no error is
signalled through `Equal`. -/
theorem C6_discarded_error_counterexample :
    (CenterDown c6b solvedS.down).2 = some (solvedS.down ++ " " ++ errColor) ∧
    Equal solvedS c6b = (false, (ApplyWCAMoves c6b "y y y").1) := by decide

/-- C6 amended: when `a`'s down color appears on none of `b`'s
centers, the inner `CenterDown` fails with the color-not-found error,
but `Equal` ignores it: `b` is not repositioned and the four-spin
comparison proceeds on `b` as it was, returning a plain boolean. -/
theorem C6_equal_discards_amended (s other : Skewb)
    (h1 : ¬(other.up = s.down)) (h2 : ¬(other.front = s.down))
    (h3 : ¬(other.right = s.down)) (h4 : ¬(other.back = s.down))
    (h5 : ¬(other.left = s.down)) (h6 : ¬(other.down = s.down)) :
    (CenterDown other s.down).2 = some (s.down ++ " " ++ errColor) ∧
    Equal s other = equalSpinSearch s other := by
  have hcd : CenterDown other s.down = (other, some (s.down ++ " " ++ errColor)) := by
    unfold CenterDown
    simp [h1, h2, h3, h4, h5, h6]
  refine ⟨by rw [hcd], ?_⟩
  unfold Equal
  rw [hcd]

/-- Witness for the amended C6 at concrete disjoint-color states. -/
theorem C6_equal_discards_amended_witness :
    (CenterDown c6b solvedS.down).2 = some (solvedS.down ++ " " ++ errColor) ∧
    Equal solvedS c6b = equalSpinSearch solvedS c6b :=
  C6_equal_discards_amended solvedS c6b (by decide) (by decide) (by decide) (by decide)
    (by decide) (by decide)

/-- C7 counterexample: the claim says no input can make a core
operation abort; with a layer color (`Q`) occurring on no corner of
the solved state, `OneLayerMirror` reaches `layerCorners[0]` on an
empty list in `getLayerColor` — an index-out-of-range abort, modelled
as `none`. -/
theorem C7_abort_counterexample : OneLayerMirror solvedS solvedS "Q" = none := by decide

/-- C7 amended: `OneLayerMirror` (and the `getLayerColor` pattern
computation driving it) returns a result whenever the layer color
occurs on one to four corners of the repositioned first state; outside
that range `getLayerColor`'s fixed `[4][3]` array indexing aborts. -/
theorem C7_no_abort_amended (s other : Skewb) (lc : String)
    (h1 : 1 ≤ (layerPairs (CenterDown s lc).1 (CenterDown s lc).1 lc).length)
    (h4 : (layerPairs (CenterDown s lc).1 (CenterDown s lc).1 lc).length ≤ 4) :
    (OneLayerMirror s other lc).isSome = true := by
  have htest : ∀ o : Skewb, (oneLayerMirror (CenterDown s lc).1 o lc).isSome = true :=
    fun o => oneLayerMirror_isSome (CenterDown s lc).1 o lc h1 h4
  simp only [OneLayerMirror]
  obtain ⟨b0, hb0⟩ :=
    Option.isSome_iff_exists.mp (htest (CenterDown other ((CenterDown s lc).1).down).1)
  rw [hb0]
  cases b0 with
  | true => rfl
  | false =>
    obtain ⟨p, hp⟩ := Option.isSome_iff_exists.mp
      (mirrorTrialsO_isSome (fun o => oneLayerMirror (CenterDown s lc).1 o lc) htest
        ["y", "y'", "y2"] (CenterDown other ((CenterDown s lc).1).down).1)
    rw [hp]
    obtain ⟨res, oF⟩ := p
    rfl

/-- Witness for the amended C7: the solved state holds `D` on exactly
four corners, and `OneLayerMirror` returns a result. -/
theorem C7_no_abort_amended_witness :
    (1 ≤ (layerPairs (CenterDown solvedS "D").1 (CenterDown solvedS "D").1 "D").length) ∧
    ((layerPairs (CenterDown solvedS "D").1 (CenterDown solvedS "D").1 "D").length ≤ 4) ∧
    (OneLayerMirror solvedS solvedS "D").isSome = true :=
  ⟨by decide, by decide, C7_no_abort_amended solvedS solvedS "D" (by decide) (by decide)⟩

/-- C8: when some center of `s` holds `c`, `CenterDown` succeeds, `c`
ends on the down center, and the repositioning is a no-op or one of
the five axis rotations `x2, x', z, x, z'`; when no center holds `c`
it fails with the color-not-found error and leaves `s` unchanged. -/
theorem C8_center_down (s : Skewb) (c : String) :
    ((s.up = c ∨ s.front = c ∨ s.right = c ∨ s.back = c ∨ s.left = c ∨ s.down = c) →
      (CenterDown s c).2 = none ∧ (CenterDown s c).1.down = c ∧
      ((CenterDown s c).1 = s ∨ ∃ r ∈ (["x2", "x'", "z", "x", "z'"] : List String),
        (CenterDown s c).1 = (ApplyWCAMoves s r).1)) ∧
    (¬(s.up = c ∨ s.front = c ∨ s.right = c ∨ s.back = c ∨ s.left = c ∨ s.down = c) →
      CenterDown s c = (s, some (c ++ " " ++ errColor))) := by
  unfold CenterDown
  split_ifs with h1 h2 h3 h4 h5 h6
  · exact ⟨fun _ => ⟨rfl, h1, Or.inr ⟨"x2", by decide, rfl⟩⟩,
      fun hn => absurd (Or.inl h1) hn⟩
  · exact ⟨fun _ => ⟨rfl, h2, Or.inr ⟨"x'", by decide, rfl⟩⟩,
      fun hn => absurd (Or.inr (Or.inl h2)) hn⟩
  · exact ⟨fun _ => ⟨rfl, h3, Or.inr ⟨"z", by decide, rfl⟩⟩,
      fun hn => absurd (Or.inr (Or.inr (Or.inl h3))) hn⟩
  · exact ⟨fun _ => ⟨rfl, h4, Or.inr ⟨"x", by decide, rfl⟩⟩,
      fun hn => absurd (Or.inr (Or.inr (Or.inr (Or.inl h4)))) hn⟩
  · exact ⟨fun _ => ⟨rfl, h5, Or.inr ⟨"z'", by decide, rfl⟩⟩,
      fun hn => absurd (Or.inr (Or.inr (Or.inr (Or.inr (Or.inl h5))))) hn⟩
  · exact ⟨fun _ => ⟨rfl, h6, Or.inl rfl⟩,
      fun hn => absurd (Or.inr (Or.inr (Or.inr (Or.inr (Or.inr h6))))) hn⟩
  · refine ⟨fun hd => ?_, fun _ => rfl⟩
    rcases hd with e | e | e | e | e | e
    · exact absurd e h1
    · exact absurd e h2
    · exact absurd e h3
    · exact absurd e h4
    · exact absurd e h5
    · exact absurd e h6

/-- Witness for C8 at the solved state and its down color. -/
theorem C8_center_down_witness :
    (CenterDown solvedS "D").2 = none ∧ (CenterDown solvedS "D").1.down = "D" ∧
    ((CenterDown solvedS "D").1 = solvedS ∨
      ∃ r ∈ (["x2", "x'", "z", "x", "z'"] : List String),
        (CenterDown solvedS "D").1 = (ApplyWCAMoves solvedS r).1) :=
  (C8_center_down solvedS "D").1 (by decide)

/-- C9 counterexample: the claim says `ApplyRubiskewbMoves`'s error
restates the Rubiskewb vocabulary (which contains `F` and `f`); the
error actually carries the WCA message `errWCAMove`, which contains no
`F` or `f` character at all and instead lists `U`, a token the
Rubiskewb notation does not accept. -/
theorem C9_vocabulary_counterexample :
    (ApplyRubiskewbMoves solvedS "Q").2 = some ("Q" ++ " " ++ errWCAMove) ∧
    errWCAMove.data.contains 'F' = false ∧ errWCAMove.data.contains 'f' = false ∧
    errWCAMove.data.contains 'U' = true := by decide

/-- C9 amended: for every single token unknown to a notation, that
notation's apply operation returns an unsupported-move error made of
the offending token followed by the same fixed WCA message
`errWCAMove` — also when the token is valid in the other notation;
`ApplyRubiskewbMoves` reuses the WCA error and does not restate the
Rubiskewb vocabulary. -/
theorem C9_error_amended (s : Skewb) (m : String) (hs : goSplitSpace m = [m]) :
    (rubiClockwise m = none → (ApplyRubiskewbMoves s m).2 = some (m ++ " " ++ errWCAMove)) ∧
    (wcaClockwise m = none → (ApplyWCAMoves s m).2 = some (m ++ " " ++ errWCAMove)) := by
  unfold ApplyRubiskewbMoves ApplyWCAMoves
  rw [hs]
  constructor
  · intro hr
    simp [applyRubiskewbTokens, hr]
  · intro hw
    simp [applyWCATokens, hw]

/-- Witness for the amended C9 at the notation-asymmetric tokens `U`
(WCA-only, unknown to Rubiskewb) and `f` (Rubiskewb-only, unknown to
WCA). -/
theorem C9_error_amended_witness :
    (ApplyRubiskewbMoves solvedS "U").2 = some ("U" ++ " " ++ errWCAMove) ∧
    (ApplyWCAMoves solvedS "f").2 = some ("f" ++ " " ++ errWCAMove) :=
  ⟨(C9_error_amended solvedS "U" (by decide)).1 (by decide),
   (C9_error_amended solvedS "f" (by decide)).2 (by decide)⟩

/-- C10: on any all-valid sequence the Reverse Computer's output ends
with a separator space, so applying it always returns the
unsupported-move error for the trailing empty token — while every
inverted token has already been applied (so the state is in fact fully
restored by the time the error is returned). -/
theorem C10_trailing_separator_error (s : Skewb) (w : String)
    (h : ∀ t ∈ goSplitSpace w, isWCAToken t = true) :
    (∃ u, createReverse w = u ++ " ") ∧
    (ApplyWCAMoves (ApplyWCAMoves s w).1 (createReverse w)).2
        = some ("" ++ " " ++ errWCAMove) ∧
    (ApplyWCAMoves (ApplyWCAMoves s w).1 (createReverse w)).1
        = runWCATokens (ApplyWCAMoves s w).1 (((goSplitSpace w).map invTok).reverse) ∧
    (ApplyWCAMoves (ApplyWCAMoves s w).1 (createReverse w)).1 = s := by
  refine ⟨?_, ?_, ?_, applyReverse_state s w h⟩
  · rw [createReverse_eq]
    apply catSp_ends
    simp [goSplitSpace_ne_nil w]
  · rw [reverse_apply s w h]
  · rw [reverse_apply s w h]

/-- Witness for C10 at the solved state and the sequence `R y2 z'`. -/
theorem C10_trailing_separator_error_witness :
    (∃ u, createReverse "R y2 z'" = u ++ " ") ∧
    (ApplyWCAMoves (ApplyWCAMoves solvedS "R y2 z'").1 (createReverse "R y2 z'")).2
        = some ("" ++ " " ++ errWCAMove) ∧
    (ApplyWCAMoves (ApplyWCAMoves solvedS "R y2 z'").1 (createReverse "R y2 z'")).1
        = runWCATokens (ApplyWCAMoves solvedS "R y2 z'").1
            (((goSplitSpace "R y2 z'").map invTok).reverse) ∧
    (ApplyWCAMoves (ApplyWCAMoves solvedS "R y2 z'").1 (createReverse "R y2 z'")).1
        = solvedS :=
  C10_trailing_separator_error solvedS "R y2 z'" (by decide)
